import Mathlib

/-!
Verification of the blueoil runtime core (runtime/include/blueoil.hpp).
The repository ships only the header declarations; every behavioral
definition below is therefore modelled from the specification's words
(§3, §4, §7 of the spec), as noted in each doc comment.
Floating-point buffers are modelled with exact rationals.
-/

namespace blueoil

/-- Modelled from the spec: the Tensor data model of §3 — `shape` (ordered
sequence of non-negative integers) and `data` (flat ordered sequence of
numeric values); the body of class `Tensor` is missing from the sources. -/
structure Tensor where
  shape : List Nat
  data : List ℚ
deriving Repr, DecidableEq

namespace Tensor

/-- Modelled from the spec: `shapeVolume` — the product of all shape
dimensions ("volume", spec glossary); the member body is missing. -/
def shapeVolume (shape : List Nat) : Nat :=
  shape.prod

/-- Modelled from the spec: the invariant of §3,
`data.length == volume(shape)`. -/
def WF (t : Tensor) : Prop :=
  t.data.length = shapeVolume t.shape

instance (t : Tensor) : Decidable (WF t) := by
  unfold WF; infer_instance

/-- Modelled from the spec: construction from shape alone
(zero-filled, §3); the constructor body is missing. -/
def fromShape (shape : List Nat) : Tensor :=
  ⟨shape, List.replicate (shapeVolume shape) 0⟩

/-- Modelled from the spec: construction from shape plus explicit flat
data, which fails when `data.length != volume(shape)` (§4.1, a checked
precondition); the constructor body is missing. -/
def fromShapeData (shape : List Nat) (data : List ℚ) : Option Tensor :=
  if data.length = shapeVolume shape then some ⟨shape, data⟩ else none

/-- Modelled from the spec: copy construction, a deep copy with equal
shape and data (§3); the copy-constructor body is missing. -/
def copy (t : Tensor) : Tensor :=
  ⟨t.shape, t.data⟩

/-- Modelled from the spec: in-place edit of one element of the flat
buffer through the mutable view returned by `data()` (§4.1); the member
body is missing. -/
def writeData (t : Tensor) (idx : Nat) (v : ℚ) : Tensor :=
  ⟨t.shape, t.data.set idx v⟩

/-- Modelled from the spec: row-major strides derived from the shape —
stride of dimension i is the product of the remaining dimensions
(spec glossary "Row-major stride"); missing from the sources. -/
def strides : List Nat → List Nat
  | [] => []
  | _ :: rest => shapeVolume rest :: strides rest

/-- Modelled from the spec: the flat offset of a (partial or full)
multi-index, resolved dimension by dimension with the last dimension
varying fastest (§3, §4.1); missing from the sources. -/
def flatOffset : List Nat → List Nat → Nat
  | _, [] => 0
  | [], _ :: _ => 0
  | _ :: rest, i :: is => i * shapeVolume rest + flatOffset rest is

/-- Modelled from the spec: `dataAsArray(indices)` returns a view of the
buffer starting at the flat offset of the multi-index (§4.1); the member
body is missing. -/
def dataAsArray (t : Tensor) (indices : List Nat) : List ℚ :=
  t.data.drop (flatOffset t.shape indices)

/-- Modelled from the spec: `allequal` — exact element-wise equality,
matching shape required, a shape mismatch being an error condition and
not a silent false (§3, §4.1, §7); the member body is missing. -/
def allequal (a b : Tensor) : Option Bool :=
  if a.shape = b.shape then
    some ((a.data.zip b.data).all fun p => decide (p.1 = p.2))
  else none

/-- Modelled from the spec: `allclose(a, b, rtol, atol)` — element-wise
tolerance comparison `|a - b| <= atol + rtol * |b|`, matching shape
required, a shape mismatch being an error condition (§3, §4.1, §7); the
member body is missing. -/
def allclose (a b : Tensor) (rtol atol : ℚ) : Option Bool :=
  if a.shape = b.shape then
    some ((a.data.zip b.data).all fun p =>
      decide (|p.1 - p.2| ≤ atol + rtol * |p.2|))
  else none

/-- Modelled from the spec: the fixed default relative tolerance of the
one-argument `allclose` overload (§3: "default values must be fixed
constants"); missing from the sources. -/
def defaultRtol : ℚ := 1 / 100000

/-- Modelled from the spec: the fixed default absolute tolerance of the
one-argument `allclose` overload (§3); missing from the sources. -/
def defaultAtol : ℚ := 1 / 100000000

/-- Modelled from the spec: the one-argument `allclose` overload using
the fixed default tolerances; the member body is missing. -/
def allcloseDefault (a b : Tensor) : Option Bool :=
  allclose a b defaultRtol defaultAtol

end Tensor

/-- The state-changing public Tensor operations of §3/§4.1: an in-place
element write through the mutable `data()` view, and copy construction.
The read-only operations (`shape()`, reading `data()`, `dataAsArray`,
iteration, `allequal`/`allclose`) leave the tensor unchanged and need no
case here. -/
inductive TensorOp where
  | write (idx : Nat) (v : ℚ)
  | copyOp
deriving Repr, DecidableEq

/-- Apply one public state-changing Tensor operation. -/
def Tensor.applyOp (t : Tensor) : TensorOp → Tensor
  | .write idx v => t.writeData idx v
  | .copyOp => t.copy

/-- Apply a sequence of public Tensor operations in order. -/
def Tensor.applyOps (t : Tensor) (ops : List TensorOp) : Tensor :=
  ops.foldl Tensor.applyOp t

/-- Modelled from the spec: a heap of tensors with explicit identities,
used to state the §3 ownership discipline ("copies are independent; no
shared mutable state"); the copy-constructor body is missing from the
sources. -/
def copyConstruct (s : List Tensor) (i : Nat) : List Tensor :=
  s ++ [(s.getD i ⟨[], []⟩).copy]

/-- Modelled from the spec: an in-place write to one tensor of the heap
through its mutable `data()` view (§4.1); the member body is missing
from the sources. -/
def storeWrite (s : List Tensor) (i idx : Nat) (v : ℚ) : List Tensor :=
  s.set i ((s.getD i ⟨[], []⟩).writeData idx v)

/-- Modelled from the spec: a processing stage, a pure mapping
`Tensor -> Tensor` (§3 "Processing Stage"); `Processor` is only a
typedef in the sources. -/
def Processor := Tensor → Tensor

/-- Modelled from the spec: the inference-engine boundary of §4.2 —
initialize returning success or failure, queried input and output
shapes, and a run operation mapping a flat input buffer to a flat
output buffer; only the extern declarations exist in the sources. -/
structure Engine where
  initOk : Bool
  inputShape : List Nat
  outputShape : List Nat
  run : List ℚ → List ℚ

/-- Modelled from the spec: the Predictor lifecycle states of §4.3 —
`Ready` is the terminal success state, `Failed` the terminal error
state after an engine-initialization failure. -/
inductive PredState where
  | Ready
  | Failed
deriving Repr, DecidableEq

/-- Modelled from the spec: the Predictor record of §3 — task tag,
class labels, expected input shape, engine handle, queried network
shapes, and the ordered pre/post-processing stage lists; the class
body is missing from the sources. -/
structure Predictor where
  task : String
  classes : List String
  expected_input_shape : List Nat
  engine : Engine
  network_input_shape : List Nat
  network_output_shape : List Nat
  pre_process : List Processor
  post_process : List Processor
  state : PredState

/-- Modelled from the spec: the outcome of `Run` (§4.3, §7) — success
with a Tensor, an `EngineInitFailure` reported without invoking the
engine, or a `ShapeMismatch` when the preprocessed shape disagrees
with the engine's queried input shape. -/
inductive RunResult where
  | ok (t : Tensor)
  | engineInitFailure
  | shapeMismatch

namespace Predictor

/-- Modelled from the spec: Predictor construction (§4.3) — `SetupNetwork`
creates and initializes the engine; on failure the Predictor transitions
to `Failed`, on success it queries and stores the engine's actual input
and output shapes and transitions to `Ready`; the constructor body is
missing from the sources. -/
def mk_from_meta (task : String) (classes : List String)
    (expected_input_shape : List Nat) (pre post : List Processor)
    (engine : Engine) : Predictor :=
  if engine.initOk then
    { task := task, classes := classes
      expected_input_shape := expected_input_shape
      engine := engine
      network_input_shape := engine.inputShape
      network_output_shape := engine.outputShape
      pre_process := pre, post_process := post
      state := .Ready }
  else
    { task := task, classes := classes
      expected_input_shape := expected_input_shape
      engine := engine
      network_input_shape := []
      network_output_shape := []
      pre_process := pre, post_process := post
      state := .Failed }

/-- Modelled from the spec: `RunPreProcess` applies each preprocessing
stage in declared order, each consuming the prior stage's output (§4.3
step 1); the member body is missing from the sources. -/
def RunPreProcess (p : Predictor) (input : Tensor) : Tensor :=
  p.pre_process.foldl (fun t f => f t) input

/-- Modelled from the spec: `RunPostProcess` applies each postprocessing
stage in declared order (§4.3 step 3); the member body is missing from
the sources. -/
def RunPostProcess (p : Predictor) (input : Tensor) : Tensor :=
  p.post_process.foldl (fun t f => f t) input

/-- Modelled from the spec: `Run(image)` (§4.3, §7) — only valid in the
`Ready` state (a Failed Predictor reports `EngineInitFailure` without
invoking the engine); otherwise preprocess, check the preprocessed
shape against the engine's queried input shape, invoke the engine's
run on the flat data capturing the output into a fresh Tensor shaped
per the queried output shape, then postprocess; the member body is
missing from the sources. -/
def Run (p : Predictor) (image : Tensor) : RunResult :=
  match p.state with
  | .Failed => .engineInitFailure
  | .Ready =>
    let pre := p.RunPreProcess image
    if pre.shape = p.network_input_shape then
      let out : Tensor := ⟨p.network_output_shape, p.engine.run pre.data⟩
      .ok (p.RunPostProcess out)
    else .shapeMismatch

end Predictor

namespace box_util

/-- Modelled from the spec: the geometric box of §3 — `x`, `y` the
top-left corner, `w`, `h` width and height. -/
structure Box where
  x : ℚ
  y : ℚ
  w : ℚ
  h : ℚ
deriving Repr, DecidableEq

/-- Modelled from the spec: `DetectedBox` extends the geometric box with
`class_id` (index into `classes`) and `score` (§3); the struct exists in
the sources, with float fields modelled as rationals. -/
structure DetectedBox extends Box where
  class_id : Nat
  score : ℚ
deriving Repr, DecidableEq

/-- Fuel-bounded worker for `chunkRows`; the fuel starts at the buffer
length, which bounds the number of produced rows. -/
def chunkRowsFuel (rowLen : Nat) : Nat → List ℚ → List (List ℚ)
  | 0, _ => []
  | _ + 1, [] => []
  | fuel + 1, x :: rest =>
    if rowLen = 0 then []
    else (x :: rest).take rowLen :: chunkRowsFuel rowLen fuel ((x :: rest).drop rowLen)

/-- Modelled from the spec: grouping of the flat output buffer into
per-cell/anchor rows of a fixed layout length (§4.4 step 1); the decoder
body is missing from the sources. -/
def chunkRows (rowLen : Nat) (l : List ℚ) : List (List ℚ) :=
  chunkRowsFuel rowLen l.length l

/-- Modelled from the spec: `argmax` over per-class scores, first
occurrence winning ties (§4.4 step 4); missing from the sources. -/
def bestClassAux : List ℚ → Nat → Nat × ℚ → Nat × ℚ
  | [], _, acc => acc
  | s :: rest, i, (bi, bs) =>
    bestClassAux rest (i + 1) (if bs < s then (i, s) else (bi, bs))

/-- Modelled from the spec: the best class id and its score among the
per-class confidence scores (§4.4 step 4); missing from the sources. -/
def bestClass : List ℚ → Nat × ℚ
  | [] => (0, 0)
  | s :: rest => bestClassAux rest 1 (0, s)

/-- Modelled from the spec: per-row decode (§4.4) — box geometry from
the first four values, objectness next, then per-class scores; the
per-class confidence is `objectness * class_probability`, the best
class is selected by argmax, and a box whose best score falls below
the confidence threshold is filtered out; missing from the sources. -/
def decodeRow (numClasses : Nat) (threshold : ℚ) (row : List ℚ) :
    Option DetectedBox :=
  match row with
  | x :: y :: w :: h :: obj :: classScores =>
    let best := bestClass ((classScores.take numClasses).map fun s => obj * s)
    if best.2 < threshold then none
    else some ⟨⟨x, y, w, h⟩, best.1, best.2⟩
  | _ => none

/-- Modelled from the spec: the best per-class confidence of a row, when
the row carries the full geometry/objectness/class-score layout (§4.4
steps 2 and 4); missing from the sources. -/
def rowBestScore (numClasses : Nat) (row : List ℚ) : Option ℚ :=
  match row with
  | _ :: _ :: _ :: _ :: obj :: classScores =>
    some (bestClass ((classScores.take numClasses).map fun s => obj * s)).2
  | _ => none

/-- Whether a row carries no box exceeding the threshold: a malformed
(short) row carries no box at all, and otherwise its best per-class
confidence must fall below the threshold (§4.4 step 3). -/
def rowBelow (numClasses : Nat) (threshold : ℚ) (row : List ℚ) : Bool :=
  match rowBestScore numClasses row with
  | none => true
  | some s => decide (s < threshold)

/-- Modelled from the spec: `FormatDetectedBox` (§4.4) — decode each
cell/anchor row of the raw output tensor, filter by the confidence
threshold, and emit the surviving boxes in order; the function body is
missing from the sources (in the header it is declared taking only the
output tensor, with the class count and threshold supplied as
model-convention configuration). -/
def FormatDetectedBox (numClasses : Nat) (threshold : ℚ)
    (output_tensor : Tensor) : List DetectedBox :=
  (chunkRows (5 + numClasses) output_tensor.data).filterMap
    (decodeRow numClasses threshold)

end box_util

/-! Theorems -/

/-- Helper: an `all` over the zip of two equally long lists holds exactly
when the predicate holds at every position. -/
theorem zip_all_iff_getD (f : ℚ × ℚ → Bool) :
    ∀ (xs ys : List ℚ), xs.length = ys.length →
      ((xs.zip ys).all f = true ↔
        ∀ i < xs.length, f (xs.getD i 0, ys.getD i 0) = true)
  | [], [], _ => by simp
  | [], _ :: _, h => by simp at h
  | _ :: _, [], h => by simp at h
  | x :: xs, y :: ys, h => by
    have hlen : xs.length = ys.length := by simpa using h
    simp only [List.zip_cons_cons, List.all_cons, Bool.and_eq_true]
    rw [zip_all_iff_getD f xs ys hlen]
    constructor
    · rintro ⟨h1, h2⟩ i hi
      cases i with
      | zero => simpa using h1
      | succ n => simpa using h2 n (by simpa using hi)
    · intro hall
      refine ⟨by simpa using hall 0 (by simp), fun i hi => ?_⟩
      simpa using hall (i + 1) (by simpa using hi)

/-- C1: on two same-shape (and same-buffer-length) tensors,
`allclose(a, b, rtol, atol)` returns true exactly when every element
satisfies `|a_i - b_i| <= atol + rtol * |b_i|`, and any single element
violating the formula makes the whole comparison return false. -/
theorem allclose_matches_formula (a b : Tensor) (rtol atol : ℚ)
    (hshape : a.shape = b.shape) (hlen : a.data.length = b.data.length) :
    (Tensor.allclose a b rtol atol = some true ↔
      ∀ i < a.data.length,
        |a.data.getD i 0 - b.data.getD i 0| ≤
          atol + rtol * |b.data.getD i 0|) ∧
    (∀ i < a.data.length,
      ¬ |a.data.getD i 0 - b.data.getD i 0| ≤
          atol + rtol * |b.data.getD i 0| →
      Tensor.allclose a b rtol atol = some false) := by
  have hiff : Tensor.allclose a b rtol atol = some true ↔
      ∀ i < a.data.length,
        |a.data.getD i 0 - b.data.getD i 0| ≤
          atol + rtol * |b.data.getD i 0| := by
    unfold Tensor.allclose
    rw [if_pos hshape, Option.some_inj]
    rw [zip_all_iff_getD _ a.data b.data hlen]
    constructor
    · intro hall i hi
      simpa using hall i hi
    · intro hall i hi
      simpa using hall i hi
  refine ⟨hiff, fun i hi hviol => ?_⟩
  cases hres : Tensor.allclose a b rtol atol with
  | none =>
    exact absurd hres (by unfold Tensor.allclose; rw [if_pos hshape]; simp)
  | some res =>
    cases res with
    | true => exact absurd (hiff.mp hres i hi) hviol
    | false => rfl

/-- Witness for C1 at concrete tensors of shape `[2]`. -/
theorem allclose_matches_formula_witness :
    Tensor.allclose ⟨[2], [1, 2]⟩ ⟨[2], [1, 2]⟩ (1/10) (1/10) = some true := by
  refine (allclose_matches_formula ⟨[2], [1, 2]⟩ ⟨[2], [1, 2]⟩ (1/10) (1/10)
    rfl rfl).1.mpr ?_
  intro i hi
  have h2 : i < 2 := by simpa using hi
  interval_cases i <;> norm_num

/-- C2: tensors created by either constructor satisfy the invariant
`data.length = volume(shape)`, and the invariant is preserved by any
sequence of public state-changing operations (writes through the mutable
data view and copies); read operations do not change the tensor. -/
theorem tensor_invariant_preserved :
    (∀ shape, (Tensor.fromShape shape).WF) ∧
    (∀ shape data t, Tensor.fromShapeData shape data = some t → t.WF) ∧
    (∀ t : Tensor, t.WF → ∀ ops, (Tensor.applyOps t ops).WF) := by
  refine ⟨fun shape => by simp [Tensor.fromShape, Tensor.WF], ?_, ?_⟩
  · intro shape data t h
    unfold Tensor.fromShapeData at h
    split at h
    · cases h
      simpa [Tensor.WF] using by assumption
    · cases h
  · intro t ht ops
    induction ops generalizing t with
    | nil => simpa [Tensor.applyOps]
    | cons op rest ih =>
      have hstep : (t.applyOp op).WF := by
        cases op with
        | write idx v =>
          simpa [Tensor.applyOp, Tensor.writeData, Tensor.WF] using ht
        | copyOp => simpa [Tensor.applyOp, Tensor.copy, Tensor.WF] using ht
      simpa [Tensor.applyOps, List.foldl_cons] using ih (t.applyOp op) hstep

/-- Witness for C2: a freshly constructed `[2,3]` tensor stays
well-formed after a write and a copy. -/
theorem tensor_invariant_preserved_witness :
    (Tensor.applyOps (Tensor.fromShape [2, 3])
      [TensorOp.write 0 5, TensorOp.copyOp]).WF :=
  tensor_invariant_preserved.2.2 (Tensor.fromShape [2, 3])
    (tensor_invariant_preserved.1 [2, 3])
    [TensorOp.write 0 5, TensorOp.copyOp]

/-- C3: on tensors of differing shape, `allequal` and `allclose` (with
or without explicit tolerances) report the shape mismatch as an error
outcome (`none`), which is distinct from an element-wise inequality
result (`some false`). -/
theorem comparison_shape_mismatch (a b : Tensor) (rtol atol : ℚ)
    (h : a.shape ≠ b.shape) :
    Tensor.allequal a b = none ∧
    Tensor.allclose a b rtol atol = none ∧
    Tensor.allcloseDefault a b = none ∧
    (none : Option Bool) ≠ some false := by
  refine ⟨?_, ?_, ?_, by simp⟩ <;>
    simp [Tensor.allequal, Tensor.allclose, Tensor.allcloseDefault, h]

/-- Witness for C3 at shapes `[2]` and `[3]`. -/
theorem comparison_shape_mismatch_witness :
    Tensor.allequal ⟨[2], [1, 2]⟩ ⟨[3], [1, 2, 3]⟩ = none ∧
    Tensor.allclose ⟨[2], [1, 2]⟩ ⟨[3], [1, 2, 3]⟩ (1/10) (1/10) = none ∧
    Tensor.allcloseDefault ⟨[2], [1, 2]⟩ ⟨[3], [1, 2, 3]⟩ = none ∧
    (none : Option Bool) ≠ some false :=
  comparison_shape_mismatch ⟨[2], [1, 2]⟩ ⟨[3], [1, 2, 3]⟩ (1/10) (1/10)
    (by simp)

/-- Counterexample for C4: for shape `[2,3,4]` the row-major strides
are `[12,4,1]`, so the flat offset of index `[1,2,3]` is
`1*12 + 2*4 + 3 = 23`, not `35` as the claim's concrete example says. -/
theorem flatOffset_example_is_23_not_35 :
    Tensor.flatOffset [2, 3, 4] [1, 2, 3] = 23 ∧ (23 : Nat) ≠ 35 := by
  exact ⟨by decide, by decide⟩

/-- C4 (amended): `dataAsArray(indices)` is the view of the flat buffer
starting at the multi-index's flat offset; the offset is the sum over
dimensions of `index[i] * stride[i]` with row-major strides (last
dimension fastest); in particular for shape `[2,3,4]` the strides are
`[12,4,1]` and the offset of index `[1,2,3]` is `23`. -/
theorem dataAsArray_row_major_offset :
    (∀ (t : Tensor) (indices : List Nat),
      t.dataAsArray indices = t.data.drop (Tensor.flatOffset t.shape indices)) ∧
    (∀ shape indices, Tensor.flatOffset shape indices =
      (List.zipWith (fun i s => i * s) indices (Tensor.strides shape)).sum) ∧
    Tensor.strides [2, 3, 4] = [12, 4, 1] ∧
    Tensor.flatOffset [2, 3, 4] [1, 2, 3] = 23 := by
  refine ⟨fun t indices => rfl, ?_, by decide, by decide⟩
  intro shape
  induction shape with
  | nil => intro indices; cases indices <;>
      simp [Tensor.flatOffset, Tensor.strides]
  | cons d rest ih =>
    intro indices
    cases indices with
    | nil => simp [Tensor.flatOffset]
    | cons i is => simp [Tensor.flatOffset, Tensor.strides, ih is]

/-- C5: constructing a tensor from a shape plus explicit flat data fails
(returns `none`) exactly when the data length differs from the shape's
volume, and on success the tensor holds the given shape and data and is
well-formed. -/
theorem fromShapeData_checked (shape : List Nat) (data : List ℚ) :
    (Tensor.fromShapeData shape data = none ↔
      data.length ≠ Tensor.shapeVolume shape) ∧
    (∀ t, Tensor.fromShapeData shape data = some t →
      t.shape = shape ∧ t.data = data ∧ t.WF) := by
  unfold Tensor.fromShapeData
  by_cases h : data.length = Tensor.shapeVolume shape
  · refine ⟨by simp [h], fun t ht => ?_⟩
    rw [if_pos h, Option.some_inj] at ht
    subst ht
    exact ⟨rfl, rfl, by simpa [Tensor.WF] using h⟩
  · refine ⟨by simp [h], fun t ht => ?_⟩
    rw [if_neg h] at ht
    cases ht

/-- Witness for C5: a length-2 buffer against shape `[2]`. -/
theorem fromShapeData_checked_witness :
    (⟨[2], [5, 7]⟩ : Tensor).shape = [2] ∧
    (⟨[2], [5, 7]⟩ : Tensor).data = [5, 7] ∧
    (⟨[2], [5, 7]⟩ : Tensor).WF :=
  (fromShapeData_checked [2] [5, 7]).2 ⟨[2], [5, 7]⟩ (by rfl)

/-- C6: on a Ready Predictor whose preprocessed tensor matches the
engine's queried input shape, `Run(image)` is exactly the composition:
preprocessing stages in declared order (the first consuming `image`,
each subsequent one the prior output), then the engine's run on the
preprocessed flat data captured into a fresh tensor shaped per the
queried output shape, then the postprocessing stages in declared
order. -/
theorem run_is_pipeline_composition (p : Predictor) (image : Tensor)
    (hready : p.state = .Ready)
    (hshape : (p.RunPreProcess image).shape = p.network_input_shape) :
    p.Run image = .ok (p.RunPostProcess
      ⟨p.network_output_shape, p.engine.run (p.RunPreProcess image).data⟩) ∧
    (∀ (f : Processor) (fs : List Processor) (t : Tensor),
      Predictor.RunPreProcess { p with pre_process := f :: fs } t =
        Predictor.RunPreProcess { p with pre_process := fs } (f t)) ∧
    (∀ (f : Processor) (fs : List Processor) (t : Tensor),
      Predictor.RunPostProcess { p with post_process := f :: fs } t =
        Predictor.RunPostProcess { p with post_process := fs } (f t)) := by
  refine ⟨?_, fun f fs t => rfl, fun f fs t => rfl⟩
  unfold Predictor.Run
  rw [hready]
  simp [hshape]

/-- Witness for C6: an identity pipeline around a copying engine
returns the input unchanged. -/
theorem run_is_pipeline_composition_witness :
    Predictor.Run
      { task := "classification", classes := ["cat"]
        expected_input_shape := [2]
        engine := { initOk := true, inputShape := [2], outputShape := [2]
                    run := fun d => d }
        network_input_shape := [2], network_output_shape := [2]
        pre_process := [], post_process := [], state := .Ready }
      ⟨[2], [1, 2]⟩ = .ok ⟨[2], [1, 2]⟩ :=
  (run_is_pipeline_composition
    { task := "classification", classes := ["cat"]
      expected_input_shape := [2]
      engine := { initOk := true, inputShape := [2], outputShape := [2]
                  run := fun d => d }
      network_input_shape := [2], network_output_shape := [2]
      pre_process := [], post_process := [], state := .Ready }
    ⟨[2], [1, 2]⟩ rfl rfl).1

/-- C7: a Predictor built over an engine whose initialization fails ends
in the Failed state (never Ready), every `Run` call on it reports
`EngineInitFailure` immediately, and the outcome is independent of the
engine's run operation (it is never invoked). -/
theorem failed_engine_init_terminal (task : String) (classes : List String)
    (eis : List Nat) (pre post : List Processor) (engine : Engine)
    (hfail : engine.initOk = false) :
    (Predictor.mk_from_meta task classes eis pre post engine).state =
      .Failed ∧
    (Predictor.mk_from_meta task classes eis pre post engine).state ≠
      .Ready ∧
    (∀ image,
      (Predictor.mk_from_meta task classes eis pre post engine).Run image =
        .engineInitFailure) ∧
    (∀ (altRun : List ℚ → List ℚ) (image : Tensor),
      Predictor.Run
        { Predictor.mk_from_meta task classes eis pre post engine with
          engine := { engine with run := altRun } } image =
        .engineInitFailure) := by
  have hstate :
      (Predictor.mk_from_meta task classes eis pre post engine).state =
        .Failed := by
    simp [Predictor.mk_from_meta, hfail]
  refine ⟨hstate, by simp [hstate], fun image => ?_, fun altRun image => ?_⟩
  · unfold Predictor.Run
    rw [hstate]
  · unfold Predictor.Run
    rw [show (({ Predictor.mk_from_meta task classes eis pre post engine with
        engine := { engine with run := altRun } } : Predictor)).state =
        .Failed from hstate]

/-- Witness for C7 at a concrete failing engine. -/
theorem failed_engine_init_terminal_witness :
    (Predictor.mk_from_meta "detection" ["c"] [1] [] []
      { initOk := false, inputShape := [1], outputShape := [1]
        run := fun d => d }).Run ⟨[1], [0]⟩ = .engineInitFailure :=
  (failed_engine_init_terminal "detection" ["c"] [1] [] []
    { initOk := false, inputShape := [1], outputShape := [1]
      run := fun d => d } rfl).2.2.1 ⟨[1], [0]⟩

/-- C8: `FormatDetectedBox` on an empty output tensor returns the empty
sequence (not an error), and when every row's best per-class confidence
falls below the threshold it also returns the empty sequence. -/
theorem format_below_threshold_empty (numClasses : Nat) (threshold : ℚ)
    (shape : List Nat) (t : Tensor)
    (hbelow : ∀ row ∈ box_util.chunkRows (5 + numClasses) t.data,
      box_util.rowBelow numClasses threshold row = true) :
    box_util.FormatDetectedBox numClasses threshold ⟨shape, []⟩ = [] ∧
    box_util.FormatDetectedBox numClasses threshold t = [] := by
  constructor
  · rfl
  · unfold box_util.FormatDetectedBox
    rw [List.filterMap_eq_nil_iff]
    intro row hrow
    have hb := hbelow row hrow
    rcases row with _ | ⟨x, _ | ⟨y, _ | ⟨w, _ | ⟨hh, _ | ⟨obj, cs⟩⟩⟩⟩⟩
    · rfl
    · rfl
    · rfl
    · rfl
    · rfl
    · have hb2 : (box_util.bestClass
          ((cs.take numClasses).map fun s => obj * s)).2 < threshold := by
        simpa [box_util.rowBelow, box_util.rowBestScore] using hb
      rw [List.map_take] at hb2
      simp [box_util.decodeRow, hb2]

/-- Witness for C8: one row with objectness 1 and zero class scores,
against threshold 1. -/
theorem format_below_threshold_empty_witness :
    box_util.FormatDetectedBox 2 1
      ⟨[1, 7], [0, 0, 0, 0, 1, 0, 0]⟩ = [] := by
  refine (format_below_threshold_empty 2 1 [1, 7]
    ⟨[1, 7], [0, 0, 0, 0, 1, 0, 0]⟩ ?_).2
  intro row hrow
  have hrows : box_util.chunkRows (5 + 2)
      (⟨[1, 7], [0, 0, 0, 0, 1, 0, 0]⟩ : Tensor).data =
      [[0, 0, 0, 0, 1, 0, 0]] := rfl
  rw [hrows] at hrow
  simp only [List.mem_singleton] at hrow
  subst hrow
  norm_num [box_util.rowBelow, box_util.rowBestScore, box_util.bestClass,
    box_util.bestClassAux]

/-- C9: copy construction of a heap tensor yields an entry with the
original's shape and data, and afterwards writing through the copy
leaves the original unchanged while writing through the original leaves
the copy unchanged — no aliasing between copies. -/
theorem copy_independence (s : List Tensor) (i : Nat) (hi : i < s.length) :
    ((copyConstruct s i)[s.length]? = some (s.getD i ⟨[], []⟩)) ∧
    (∀ idx v,
      (storeWrite (copyConstruct s i) s.length idx v)[i]? = s[i]?) ∧
    (∀ idx v,
      (storeWrite (copyConstruct s i) i idx v)[s.length]? =
        some (s.getD i ⟨[], []⟩)) := by
  have hcopy : (copyConstruct s i)[s.length]? = some (s.getD i ⟨[], []⟩) :=
    List.getElem?_concat_length s _
  refine ⟨hcopy, fun idx v => ?_, fun idx v => ?_⟩
  · unfold storeWrite
    rw [List.getElem?_set_ne (by omega)]
    exact List.getElem?_append_left hi
  · unfold storeWrite
    rw [List.getElem?_set_ne (by omega)]
    exact hcopy

/-- Witness for C9: a one-tensor heap; writing through the copy leaves
the original untouched. -/
theorem copy_independence_witness :
    (storeWrite (copyConstruct [⟨[1], [0]⟩] 0) 1 0 5)[0]? =
      ([(⟨[1], [0]⟩ : Tensor)])[0]? :=
  (copy_independence [⟨[1], [0]⟩] 0 (by simp)).2.1 0 5

/-- C10: `FormatDetectedBox` is a deterministic pure function of the
output tensor's shape and data: two calls on tensors with equal shape
and equal data produce identical box sequences. -/
theorem format_deterministic (numClasses : Nat) (threshold : ℚ)
    (t1 t2 : Tensor) (_hshape : t1.shape = t2.shape)
    (hdata : t1.data = t2.data) :
    box_util.FormatDetectedBox numClasses threshold t1 =
      box_util.FormatDetectedBox numClasses threshold t2 := by
  unfold box_util.FormatDetectedBox
  rw [hdata]

/-- Witness for C10: two syntactically different tensors with equal
shape and data decode identically. -/
theorem format_deterministic_witness :
    box_util.FormatDetectedBox 1 0 ⟨[2], [3, 3]⟩ =
      box_util.FormatDetectedBox 1 0 ⟨[2], List.replicate 2 3⟩ :=
  format_deterministic 1 0 ⟨[2], [3, 3]⟩ ⟨[2], List.replicate 2 3⟩ rfl rfl

end blueoil
